import Mathlib

/-!
Shallow embedding of `src/medrxiv_langchain/loader.py` (package
`medrxiv_langchain`): the `QueryBuilder` fluent builder and the
`BioRxivLoader` fetch orchestration (URL construction, response
validation, pagination loop, multi-server merge).  Machine-level
details are modelled as follows: Python strings are Lean `String`
values compared through their character lists (CPython compares by
code point, as Lean `Char` comparison does); Python `None` is `Option`;
exceptions are `Except` results; the `while True` pagination loop is a
fuel-indexed recursion returning `none` when the fuel is exhausted.
-/

namespace MedrxivSpec

/-! ## Python string primitives, kernel-computable -/

/-- Value of a decimal digit character. -/
def dval (c : Char) : Nat := c.toNat - 48

/-- Python `str.isdigit()` for ASCII strings: non-empty and all digits. -/
def strIsDigit (s : String) : Bool := !s.data.isEmpty && s.data.all Char.isDigit

/-- Python `s.endswith('d')` for the one-character suffix used by the code:
the last character is `d`. -/
def strEndsWithD (s : String) : Bool := s.data.getLast? == some 'd'

/-- Python `str.lower()` (character-wise, as used on ASCII server names). -/
def strToLower (s : String) : String := String.mk (s.data.map Char.toLower)

/-- Python truthiness of an `Optional[str]`: `None` and the empty string are
falsy, every other string is truthy. -/
def strTruthy : Option String → Bool
  | some s => !(s == "")
  | none => false

/-! ## CPython `datetime.strptime(date_str, "%Y-%m-%d")`

CPython's `_strptime` compiles the format into the regular expression
`(?P<Y>\d\d\d\d)-(?P<m>1[0-2]|0[1-9]|[1-9])-(?P<d>3[01]|[12]\d|0[1-9]|[1-9])`,
matches it at the start of the input with ordered-alternative
backtracking, raises when the match fails or leaves unconverted
characters, and finally constructs `datetime(y, m, d)`, which raises
unless `1 <= y` and the day fits the (proleptic Gregorian) month
length.  The model below reproduces exactly that: alternatives are
tried in the regex order, a later element of the pattern failing
backtracks into the month alternatives, and the end-of-input check
happens only after the first complete match. -/

/-- Gregorian leap-year rule used by Python `datetime`. -/
def isLeapYear (y : Nat) : Bool := y % 4 == 0 && (y % 100 != 0 || y % 400 == 0)

/-- Length of a month as Python `datetime` validates it. -/
def daysInMonth (y m : Nat) : Nat :=
  if m == 2 then (if isLeapYear y then 29 else 28)
  else if m == 4 || m == 6 || m == 9 || m == 11 then 30
  else 31

/-- The `%Y` directive: exactly four decimal digits. -/
def year4 : List Char → Option (Nat × List Char)
  | c1 :: c2 :: c3 :: c4 :: rest =>
    if c1.isDigit && c2.isDigit && c3.isDigit && c4.isDigit then
      some ((((dval c1) * 10 + dval c2) * 10 + dval c3) * 10 + dval c4, rest)
    else none
  | _ => none

/-- The `%m` directive `1[0-2]|0[1-9]|[1-9]`: the candidate parses in the
order the regex engine tries them. -/
def monthAlts (cs : List Char) : List (Nat × List Char) :=
  (match cs with
   | '1' :: c :: rest => if '0' ≤ c ∧ c ≤ '2' then [(10 + dval c, rest)] else []
   | _ => []) ++
  (match cs with
   | '0' :: c :: rest => if '1' ≤ c ∧ c ≤ '9' then [(dval c, rest)] else []
   | _ => []) ++
  (match cs with
   | c :: rest => if '1' ≤ c ∧ c ≤ '9' then [(dval c, rest)] else []
   | _ => [])

/-- The `%d` directive `3[01]|[12]\d|0[1-9]|[1-9]`, in regex order. -/
def dayAlts (cs : List Char) : List (Nat × List Char) :=
  (match cs with
   | '3' :: c :: rest => if c = '0' ∨ c = '1' then [(30 + dval c, rest)] else []
   | _ => []) ++
  (match cs with
   | c1 :: c2 :: rest =>
     if (c1 = '1' ∨ c1 = '2') ∧ c2.isDigit then [(10 * dval c1 + dval c2, rest)] else []
   | _ => []) ++
  (match cs with
   | '0' :: c :: rest => if '1' ≤ c ∧ c ≤ '9' then [(dval c, rest)] else []
   | _ => []) ++
  (match cs with
   | c :: rest => if '1' ≤ c ∧ c ≤ '9' then [(dval c, rest)] else []
   | _ => [])

/-- Nothing follows the day group inside the regex, so the engine commits to
the first day alternative that matches. -/
def dayFirst (cs : List Char) : Option (Nat × List Char) := (dayAlts cs).head?

/-- Backtracking over the month alternatives: for each candidate in order,
the literal `-` and then a day must match, else the next candidate is
tried. -/
def firstMonthDay : List (Nat × List Char) → Option (Nat × Nat × List Char)
  | [] => none
  | (m, rest) :: alts =>
    match rest with
    | '-' :: rest2 =>
      (match dayFirst rest2 with
       | some (d, rest3) => some (m, d, rest3)
       | none => firstMonthDay alts)
    | _ => firstMonthDay alts

/-- Calendar validation performed by the `datetime(y, m, d)` constructor
(the regex already bounds `m` to 1..12 and `d` to 1..31). -/
def validYmd (y m d : Nat) : Bool := 1 ≤ y && d ≤ daysInMonth y m

/-- `datetime.strptime(s, "%Y-%m-%d")` as an `Option`: `some (y, m, d)` when
CPython parses, `none` when it raises `ValueError`. -/
def strptimeYmd (s : String) : Option (Nat × Nat × Nat) :=
  match year4 s.data with
  | some (y, '-' :: rest) =>
    (match firstMonthDay (monthAlts rest) with
     | some (m, d, rest3) =>
       if rest3 = [] ∧ validYmd y m d then some (y, m, d) else none
     | none => none)
  | _ => none

/-- Modelled from the spec: the literal `YYYY-MM-DD` pattern of section 8,
P2 — a four-digit year, a zero-padded two-digit month and two-digit day,
with valid calendar values.  This is the claim-side definition, to be
compared with the code-side `strptimeYmd`. -/
def matchesIsoDateSpec (s : String) : Bool :=
  match s.data with
  | [y1, y2, y3, y4, h1, m1, m2, h2, d1, d2] =>
    y1.isDigit && y2.isDigit && y3.isDigit && y4.isDigit && h1 == '-' &&
    m1.isDigit && m2.isDigit && h2 == '-' && d1.isDigit && d2.isDigit &&
    (let y := (((dval y1) * 10 + dval y2) * 10 + dval y3) * 10 + dval y4
     let m := 10 * dval m1 + dval m2
     let d := 10 * dval d1 + dval d2
     1 ≤ y && 1 ≤ m && m ≤ 12 && 1 ≤ d && d ≤ daysInMonth y m)
  | _ => false

/-! ## QueryBuilder -/

/-- State of the fluent `QueryBuilder` (fields `_start_date`, `_end_date`,
`_recent_papers`, `_recent_days`, `_servers`). -/
structure QueryBuilder where
  start_date : Option String := none
  end_date : Option String := none
  recent_papers : Option Int := none
  recent_days : Option Int := none
  servers : List String := ["biorxiv"]
deriving DecidableEq

/-- `QueryBuilder._validate_date`: raises `ValueError` when `strptime`
fails. -/
def validateDate (s : String) : Except String Unit :=
  match strptimeYmd s with
  | some _ => .ok ()
  | none =>
    .error ("Invalid date format: " ++ s ++ ". Date must be in YYYY-MM-DD format")

/-- `QueryBuilder.date_range`: validates both dates, then records them. -/
def QueryBuilder.date_range (b : QueryBuilder) (s e : String) :
    Except String QueryBuilder :=
  match validateDate s with
  | .error msg => .error msg
  | .ok _ =>
    match validateDate e with
    | .error msg => .error msg
    | .ok _ => .ok { b with start_date := some s, end_date := some e }

/-- `QueryBuilder.most_recent`. -/
def QueryBuilder.most_recent (b : QueryBuilder) (count : Int) :
    Except String QueryBuilder :=
  if count ≤ 0 then .error "Count must be positive"
  else .ok { b with recent_papers := some count }

/-- `QueryBuilder.last_days`. -/
def QueryBuilder.last_days (b : QueryBuilder) (days : Int) :
    Except String QueryBuilder :=
  if days ≤ 0 then .error "Days must be positive"
  else .ok { b with recent_days := some days }

/-- `QueryBuilder.from_servers` on an already-listed argument (the code
wraps a single string into a one-element list first): every name must be
`biorxiv` or `medrxiv` up to case, and names are normalized to
lowercase. -/
def QueryBuilder.from_servers (b : QueryBuilder) (ss : List String) :
    Except String QueryBuilder :=
  if ss.all (fun s => strToLower s == "biorxiv" || strToLower s == "medrxiv") then
    .ok { b with servers := ss.map strToLower }
  else .error "Server must be either 'biorxiv' or 'medrxiv'"

/-- The dictionary `build()` returns. -/
structure BuiltQuery where
  query : Option String
  start_date : Option String
  end_date : Option String
  servers : List String
deriving DecidableEq

/-- Python `a or b` for `Optional[str] a`: the default is used when `a` is
`None` or empty. -/
def orDefault (v : Option String) (dflt : String) : String :=
  match v with
  | some s => if s == "" then dflt else s
  | none => dflt

/-- How many of the three interval fields are set. -/
def intervalFieldsSet (b : QueryBuilder) : Nat :=
  (if b.recent_papers.isSome then 1 else 0) +
  (if b.recent_days.isSome then 1 else 0) +
  (if b.start_date.isSome then 1 else 0)

/-- `QueryBuilder.build`.  The two date arguments stand for the strings
`(datetime.now() - timedelta(days=30)).strftime("%Y-%m-%d")` and
`datetime.now().strftime("%Y-%m-%d")`, which the code computes at build
time; the build-time clock is a parameter of this pure model. -/
def QueryBuilder.build (b : QueryBuilder) (defaultStart defaultEnd : String) :
    Except String BuiltQuery :=
  if intervalFieldsSet b > 1 then
    .error "Cannot combine different query types. Use either date_range, most_recent, or last_days."
  else
    match b.recent_papers with
    | some n => .ok ⟨some (toString n), none, none, b.servers⟩
    | none =>
      match b.recent_days with
      | some n => .ok ⟨some (toString n ++ "d"), none, none, b.servers⟩
      | none =>
        .ok ⟨none, some (orDefault b.start_date defaultStart),
             some (orDefault b.end_date defaultEnd), b.servers⟩

/-- One call in a fluent chain on a `QueryBuilder`. -/
inductive BuilderCall where
  | dateRange (s e : String)
  | mostRecent (n : Int)
  | lastDays (n : Int)
  | fromServers (ss : List String)
deriving DecidableEq

/-- Dispatch one fluent call. -/
def applyCall (b : QueryBuilder) : BuilderCall → Except String QueryBuilder
  | .dateRange s e => b.date_range s e
  | .mostRecent n => b.most_recent n
  | .lastDays n => b.last_days n
  | .fromServers ss => b.from_servers ss

/-- Run a chain of fluent calls left to right; the first raised
`ValueError` aborts the chain. -/
def applyCalls (b : QueryBuilder) : List BuilderCall → Except String QueryBuilder
  | [] => .ok b
  | c :: cs =>
    match applyCall b c with
    | .error msg => .error msg
    | .ok b2 => applyCalls b2 cs

/-- The call is `date_range`. -/
def isDateRangeCall : BuilderCall → Bool
  | .dateRange .. => true
  | _ => false

/-- The call is `most_recent`. -/
def isMostRecentCall : BuilderCall → Bool
  | .mostRecent .. => true
  | _ => false

/-- The call is `last_days`. -/
def isLastDaysCall : BuilderCall → Bool
  | .lastDays .. => true
  | _ => false

/-! ## BioRxivLoader: data model

A raw API record is read only through `item.get(key, "")`, so a record is
modelled as a structure of the read fields, each defaulting to the empty
string for a missing key. -/

/-- One element of the `collection` array of an API page. -/
structure RawItem where
  title : String := ""
  abstract : String := ""
  authors : String := ""
  author_corresponding : String := ""
  author_corresponding_institution : String := ""
  doi : String := ""
  version : String := ""
  date : String := ""
  category : String := ""
  type : String := ""
  license : String := ""
  published : String := ""
deriving DecidableEq

/-- The metadata dictionary built by `BioRxivLoader._process_item`. -/
structure DocMetadata where
  title : String
  authors : String
  author_corresponding : String
  author_corresponding_institution : String
  doi : String
  version : String
  date : String
  date_published : String
  category : String
  type : String
  license : String
  published : String
  server : String
  link_page : String
  link_pdf : String
deriving DecidableEq

/-- A LangChain `Document`: page content plus metadata. -/
structure Document where
  page_content : String
  metadata : DocMetadata
deriving DecidableEq

/-- `BioRxivLoader._process_item`. -/
def processItem (item : RawItem) (server : String) : Document :=
  { page_content :=
      "Title: " ++ item.title ++ "\n\nAbstract: " ++ item.abstract
  , metadata :=
    { title := item.title
    , authors := item.authors
    , author_corresponding := item.author_corresponding
    , author_corresponding_institution := item.author_corresponding_institution
    , doi := item.doi
    , version := item.version
    , date := item.date
    , date_published := item.date
    , category := item.category
    , type := item.type
    , license := item.license
    , published := item.published
    , server := server
    , link_page :=
        "https://www." ++ server ++ ".org/content/" ++ item.doi ++ "v" ++ item.version
    , link_pdf :=
        "https://www." ++ server ++ ".org/content/" ++ item.doi ++ "v" ++ item.version
          ++ ".full.pdf" } }

/-- One element of the `messages` array of an API page, read through
`.get`: the code reads the `cursor` key, and on a missing-collection page
the `error` key; real payloads also carry a `status` key (for example
`no posts found`), which the code never reads. -/
structure ApiMessage where
  cursor : Option String := none
  error : Option String := none
  status : Option String := none
deriving DecidableEq

/-- A deserialized API page that is a mapping: the `collection` and
`messages` keys, `none` when the key is absent. -/
structure ApiData where
  collection : Option (List RawItem) := none
  messages : Option (List ApiMessage) := none
deriving DecidableEq

/-- A successfully transported, JSON-deserialized body: either a mapping
or some other JSON value (list, string, number, ...). -/
inductive ApiBody where
  | dict (d : ApiData)
  | nonDict
deriving DecidableEq

/-- The exceptions `_fetch_data` can raise: `ValueError` (invalid format,
API error message, missing field, JSON decode failure) or
`ConnectionError` (transport failure surviving the retries). -/
inductive FetchError where
  | valueError (msg : String)
  | connectionError (msg : String)
deriving DecidableEq

/-- Decidable equality of fetch outcomes, for concrete evaluation. -/
instance {e a : Type} [DecidableEq e] [DecidableEq a] : DecidableEq (Except e a)
  | .error x, .error y => decidable_of_iff (x = y) (by simp)
  | .ok x, .ok y => decidable_of_iff (x = y) (by simp)
  | .error _, .ok _ => isFalse (by simp)
  | .ok _, .error _ => isFalse (by simp)

/-- The validation half of `BioRxivLoader._fetch_data`, applied to a body
that transported and deserialized: not a mapping raises; a mapping without
`collection` raises an API-error `ValueError` when `messages` is present
and non-empty (message text from `messages[0].get("error", "Unknown
error")`), and a missing-field `ValueError` otherwise. -/
def fetchDataValidate : ApiBody → Except FetchError ApiData
  | .nonDict => .error (.valueError "Invalid API response format. Expected dict")
  | .dict d =>
    match d.collection with
    | some _ => .ok d
    | none =>
      match d.messages with
      | some (m :: _) =>
        .error (.valueError ("API error: " ++ (m.error.getD "Unknown error")))
      | _ => .error (.valueError "API response missing 'collection' field")

/-- `BioRxivLoader._fetch_data`: the HTTP layer (session `get`,
`raise_for_status`, `response.json()`) is the `httpGet` parameter, which
either fails (transport or decode error) or yields a deserialized body;
the body is then validated. -/
def fetchData (httpGet : String → Except FetchError ApiBody) (url : String) :
    Except FetchError ApiData :=
  match httpGet url with
  | .error e => .error e
  | .ok body => fetchDataValidate body

/-- `BioRxivLoader._build_api_url`.  `urllib.parse.urljoin(base, path)`
with the fixed base ending in `/` and a relative path is plain
concatenation, so it is written as such. -/
def buildApiUrl (query startDate endDate : Option String) (server cursor : String) :
    String :=
  let interval :=
    if strTruthy query &&
        (strIsDigit (query.getD "") || strEndsWithD (query.getD "")) then
      query.getD ""
    else if strTruthy startDate && strTruthy endDate then
      (startDate.getD "") ++ "/" ++ (endDate.getD "")
    else
      "30d"
  "https://api.biorxiv.org/details/" ++ server ++ "/" ++ interval ++ "/" ++ cursor
    ++ "/json"

/-! ## BioRxivLoader: pagination loop -/

/-- The guard `self.max_results and total_fetched >= self.max_results`:
`None` and `0` are falsy, so no cap applies then. -/
def capReached (maxResults : Option Nat) (total : Nat) : Bool :=
  match maxResults with
  | none => false
  | some k => !(k == 0) && (k ≤ total)

/-- The `for item in data.get("collection", [])` body of
`_load_from_server`: each item is processed and appended, the count is
bumped, and the function returns early (flag `true`) as soon as the cap
is reached. -/
def processItems (server : String) (maxResults : Option Nat) :
    List RawItem → List Document → Nat → List Document × Nat × Bool
  | [], docs, total => (docs, total, false)
  | item :: rest, docs, total =>
    let docs2 := docs ++ [processItem item server]
    let total2 := total + 1
    if capReached maxResults total2 then (docs2, total2, true)
    else processItems server maxResults rest docs2 total2

/-- Python `f"{cursor}"` on the loop cursor, which is a string at first
and may become `None` when a message lacks the `cursor` key. -/
def cursorStr : Option String → String
  | some s => s
  | none => "None"

/-- The `while True` loop of `BioRxivLoader._load_from_server`, with fuel;
`none` means the fuel ran out before the loop ended.  On success it
returns the documents together with the number of pages fetched.  The
loop stops on an early cap return, on an empty `messages` list, or when
`messages[0].get("cursor")` equals the cursor just used; otherwise it
continues from the returned cursor. -/
def loadLoop (httpGet : String → Except FetchError ApiBody)
    (query startDate endDate : Option String) (server : String)
    (maxResults : Option Nat) :
    Nat → Option String → List Document → Nat → Nat →
    Option (Except FetchError (List Document × Nat))
  | 0, _, _, _, _ => none
  | fuel + 1, cursor, docs, total, fetches =>
    match fetchData httpGet
        (buildApiUrl query startDate endDate server (cursorStr cursor)) with
    | .error e => some (.error e)
    | .ok d =>
      match processItems server maxResults (d.collection.getD []) docs total with
      | (docs2, _, true) => some (.ok (docs2, fetches + 1))
      | (docs2, total2, false) =>
        match d.messages.getD [] with
        | [] => some (.ok (docs2, fetches + 1))
        | m :: _ =>
          if m.cursor == cursor then some (.ok (docs2, fetches + 1))
          else
            loadLoop httpGet query startDate endDate server maxResults
              fuel m.cursor docs2 total2 (fetches + 1)

/-- `BioRxivLoader._load_from_server`: the loop started on cursor `"0"`
with empty accumulators. -/
def loadFromServer (httpGet : String → Except FetchError ApiBody)
    (query startDate endDate : Option String) (server : String)
    (maxResults : Option Nat) (fuel : Nat) :
    Option (Except FetchError (List Document × Nat)) :=
  loadLoop httpGet query startDate endDate server maxResults
    fuel (some "0") [] 0 0

/-! ## BioRxivLoader: multi-server merge -/

/-- Lexicographic code-point comparison of character lists, i.e. Python
string `<=`. -/
def charListLe : List Char → List Char → Bool
  | [], _ => true
  | _ :: _, [] => false
  | a :: as, b :: bs => if a = b then charListLe as bs else decide (a < b)

/-- Python `s <= t` on strings. -/
def pyStrLe (s t : String) : Bool := charListLe s.data t.data

/-- The comparator realized by
`combined_docs.sort(key=lambda x: x.metadata["date"], reverse=True)`:
`a` may stand before `b` exactly when `b`'s date is at most `a`'s. -/
def dateGe (a b : Document) : Bool := pyStrLe b.metadata.date a.metadata.date

/-- Stable insertion for `sortStable`. -/
def insertDesc (le : Document → Document → Bool) (a : Document) :
    List Document → List Document
  | [] => [a]
  | b :: bs => if le a b then a :: b :: bs else b :: insertDesc le a bs

/-- Python `list.sort(key=..., reverse=True)` is a stable sort, and a
stable sort's output is uniquely determined by the comparator and the
input, so it is modelled by stable insertion sort with the descending
comparator. -/
def sortStable (le : Document → Document → Bool) : List Document → List Document
  | [] => []
  | a :: as => insertDesc le a (sortStable le as)

/-- The truncation `if self.max_results: combined_docs =
combined_docs[:self.max_results]` (again, `None` and `0` are falsy). -/
def applyCap (maxResults : Option Nat) (docs : List Document) : List Document :=
  match maxResults with
  | none => docs
  | some k => if k == 0 then docs else docs.take k

/-- `list(executor.map(self._load_from_server, self.servers))`: every
per-server drain runs to completion; if any drain exhausts its fuel the
whole call has no result, otherwise the first raised exception in server
order propagates, otherwise the per-server document lists are collected
in server order. -/
def drainAll (httpGet : String → Except FetchError ApiBody)
    (query startDate endDate : Option String) (maxResults : Option Nat)
    (fuel : Nat) :
    List String → Option (Except FetchError (List (List Document)))
  | [] => some (.ok [])
  | server :: rest =>
    match loadFromServer httpGet query startDate endDate server maxResults fuel,
        drainAll httpGet query startDate endDate maxResults fuel rest with
    | none, _ => none
    | _, none => none
    | some (.error e), some _ => some (.error e)
    | some (.ok _), some (.error e) => some (.error e)
    | some (.ok (ds, _)), some (.ok rs) => some (.ok (ds :: rs))

/-- `BioRxivLoader.load`: a single server delegates to
`_load_from_server` directly; several servers are drained in parallel,
the per-server lists are chained, sorted by `metadata.date` descending
(stable), and truncated to `max_results`. -/
def load (httpGet : String → Except FetchError ApiBody)
    (query startDate endDate : Option String) (servers : List String)
    (maxResults : Option Nat) (fuel : Nat) :
    Option (Except FetchError (List Document)) :=
  match servers with
  | [server] =>
    match loadFromServer httpGet query startDate endDate server maxResults fuel with
    | none => none
    | some (.error e) => some (.error e)
    | some (.ok (docs, _)) => some (.ok docs)
  | _ =>
    match drainAll httpGet query startDate endDate maxResults fuel servers with
    | none => none
    | some (.error e) => some (.error e)
    | some (.ok lists) =>
      some (.ok (applyCap maxResults (sortStable dateGe lists.flatten)))

/-- The continuation token the loop reads from a page:
`messages[0].get("cursor")`, or nothing when `messages` is empty. -/
def nextCursor (d : ApiData) : Option String :=
  match d.messages.getD [] with
  | [] => none
  | m :: _ => m.cursor

/-- The cursor sequence a given page family drives the loop through,
starting from the initial cursor `0`. -/
def pageChain (page : Option String → ApiData) : Nat → Option String
  | 0 => some "0"
  | i + 1 => nextCursor (page (pageChain page i))

/-- Number of records carried by the pages fetched strictly before the
chain position `i`. -/
def docsBefore (page : Option String → ApiData) : Nat → Nat
  | 0 => 0
  | i + 1 => docsBefore page i +
      ((page (pageChain page i)).collection.getD []).length

/-- A two-record page used by concrete multi-server scenarios: both
servers answer with the same collection and an echoed cursor. -/
def c7HttpGet : String → Except FetchError ApiBody := fun _ =>
  .ok (.dict ⟨some [{ date := "2024-01-10" }, { date := "2024-01-20" }],
    some [⟨some "0", none, none⟩]⟩)

/-- The per-server document lists `c7HttpGet` produces. -/
def c7Lists : List (List Document) :=
  [[processItem { date := "2024-01-10" } "biorxiv",
    processItem { date := "2024-01-20" } "biorxiv"],
   [processItem { date := "2024-01-10" } "medrxiv",
    processItem { date := "2024-01-20" } "medrxiv"]]

/-- A transport layer that succeeds for the biorxiv page and fails for
every other URL. -/
def c9HttpGet : String → Except FetchError ApiBody := fun url =>
  if url = "https://api.biorxiv.org/details/biorxiv/5/0/json" then
    .ok (.dict ⟨some [{ date := "2024-01-10" }], some [⟨some "0", none, none⟩]⟩)
  else .error (.connectionError "Failed to fetch data from API: boom")

/-- A transport layer for a concrete two-server scenario: biorxiv answers
one page with records dated 2024-01-10 and 2024-01-20 (in that order),
medrxiv one page with a single record dated 2024-01-15; both pages echo
the cursor. -/
def c2HttpGet : String → Except FetchError ApiBody := fun url =>
  if url = "https://api.biorxiv.org/details/biorxiv/5/0/json" then
    .ok (.dict ⟨some [{ date := "2024-01-10" }, { date := "2024-01-20" }],
      some [⟨some "0", none, none⟩]⟩)
  else if url = "https://api.biorxiv.org/details/medrxiv/5/0/json" then
    .ok (.dict ⟨some [{ date := "2024-01-15" }], some [⟨some "0", none, none⟩]⟩)
  else .error (.connectionError "unexpected url")

/-- An API page that always echoes the request cursor `0`. -/
def c6HttpGet : String → Except FetchError ApiBody := fun _ =>
  .ok (.dict ⟨some [{ date := "2024-01-10" }], some [⟨some "0", none, none⟩]⟩)

/-- Pages for the C5 scenario: every cursor yields one record and a fresh
continuation token alternating between `A` and `B`. -/
def c5Page : Option String → ApiData := fun c =>
  ⟨some [{ date := "2024-01-10" }],
   some [⟨some (if c == some "A" then "B" else "A"), none, none⟩]⟩

/-- Transport for the C5 scenario: the three URLs the chain can reach
answer with `c5Page`; anything else fails. -/
def c5HttpGet : String → Except FetchError ApiBody := fun url =>
  if url = "https://api.biorxiv.org/details/biorxiv/5/0/json" then
    .ok (.dict (c5Page (some "0")))
  else if url = "https://api.biorxiv.org/details/biorxiv/5/A/json" then
    .ok (.dict (c5Page (some "A")))
  else if url = "https://api.biorxiv.org/details/biorxiv/5/B/json" then
    .ok (.dict (c5Page (some "B")))
  else .error (.connectionError "unexpected url")

/-- Modelled from the spec: the multi-source behaviour claim C2 asserts —
every per-source drain runs without any per-source cap, all fetched
documents are merged and date-sorted, and only then is the combined
sequence truncated once to `maxResults`.  Claim-side definition, to be
compared with the code-side `load`. -/
def loadCapOnlyAfterMerge (httpGet : String → Except FetchError ApiBody)
    (query startDate endDate : Option String) (servers : List String)
    (maxResults : Option Nat) (fuel : Nat) :
    Option (Except FetchError (List Document)) :=
  match drainAll httpGet query startDate endDate none fuel servers with
  | none => none
  | some (.error e) => some (.error e)
  | some (.ok lists) =>
    some (.ok (applyCap maxResults (sortStable dateGe lists.flatten)))

/-- Char order in terms of code points. -/
lemma char_le_iff (a c : Char) : a ≤ c ↔ a.toNat ≤ c.toNat := by
  constructor
  · intro h
    rw [Char.le_def, UInt32.le_def, BitVec.le_def] at h
    simpa using h
  · intro h
    rw [Char.le_def, UInt32.le_def, BitVec.le_def]
    simpa using h

lemma digit_toNat_bounds (c : Char) (h : c.isDigit = true) :
    48 ≤ c.toNat ∧ c.toNat ≤ 57 := by
  simp [Char.isDigit] at h
  exact h

lemma dval_le_nine (c : Char) (h : c.isDigit = true) : dval c ≤ 9 := by
  have := digit_toNat_bounds c h
  unfold dval
  omega

lemma digit_eq_of_dval (c : Char) (h : c.isDigit = true) (n : Nat)
    (hn : dval c = n) : c = Char.ofNat (48 + n) := by
  have hb := digit_toNat_bounds c h
  have ht : c.toNat = 48 + n := by unfold dval at hn; omega
  have h2 := Char.ofNat_toNat c
  rw [ht] at h2
  exact h2.symm

lemma char_le_of_toNat (a c : Char) (h : a.toNat ≤ c.toNat) : a ≤ c :=
  (char_le_iff a c).mpr h

lemma digit_one_le (c : Char) (h : c.isDigit = true) (h1 : 1 ≤ dval c) :
    '1' ≤ c ∧ c ≤ '9' := by
  have hb := digit_toNat_bounds c h
  constructor
  · exact char_le_of_toNat _ _ (by unfold dval at h1; show 49 ≤ c.toNat; omega)
  · exact char_le_of_toNat _ _ (by show c.toNat ≤ 57; omega)

/-- A two-digit day in 1..31 is read by the first matching day
alternative, consuming both characters. -/
lemma dayFirst_digits (d1 d2 : Char) (h1 : d1.isDigit = true)
    (h2 : d2.isDigit = true) (hlo : 1 ≤ 10 * dval d1 + dval d2)
    (hhi : 10 * dval d1 + dval d2 ≤ 31) :
    dayFirst [d1, d2] = some (10 * dval d1 + dval d2, []) := by
  have h9a := dval_le_nine d1 h1
  have h9b := dval_le_nine d2 h2
  have hd1 : dval d1 ≤ 3 := by omega
  interval_cases hv : (dval d1)
  · have hc : d1 = '0' := (digit_eq_of_dval d1 h1 0 hv).trans (by decide)
    subst hc
    have hd2 : 1 ≤ dval d2 := by omega
    obtain ⟨ha, hb⟩ := digit_one_le d2 h2 hd2
    simp [dayFirst, dayAlts, ha, hb]
  · have hc : d1 = '1' := (digit_eq_of_dval d1 h1 1 hv).trans (by decide)
    subst hc
    simp [dayFirst, dayAlts, h2, show dval '1' = 1 from rfl]
  · have hc : d1 = '2' := (digit_eq_of_dval d1 h1 2 hv).trans (by decide)
    subst hc
    simp [dayFirst, dayAlts, h2, show dval '2' = 2 from rfl]
  · have hc : d1 = '3' := (digit_eq_of_dval d1 h1 3 hv).trans (by decide)
    subst hc
    have hd2 : dval d2 ≤ 1 := by omega
    interval_cases hw : (dval d2)
    · have hc2 : d2 = '0' := (digit_eq_of_dval d2 h2 0 hw).trans (by decide)
      subst hc2
      decide
    · have hc2 : d2 = '1' := (digit_eq_of_dval d2 h2 1 hw).trans (by decide)
      subst hc2
      decide

/-- A two-digit month in 1..12 followed by a hyphen and a matching day is
read with its full two digits by the regex backtracking. -/
lemma firstMonthDay_digits (m1 m2 : Char) (rest2 : List Char) (d : Nat)
    (rest3 : List Char) (h1 : m1.isDigit = true) (h2 : m2.isDigit = true)
    (hlo : 1 ≤ 10 * dval m1 + dval m2) (hhi : 10 * dval m1 + dval m2 ≤ 12)
    (hday : dayFirst rest2 = some (d, rest3)) :
    firstMonthDay (monthAlts (m1 :: m2 :: '-' :: rest2)) =
      some (10 * dval m1 + dval m2, d, rest3) := by
  have h9b := dval_le_nine m2 h2
  have hm1 : dval m1 ≤ 1 := by omega
  interval_cases hv : (dval m1)
  · have hc : m1 = '0' := (digit_eq_of_dval m1 h1 0 hv).trans (by decide)
    subst hc
    have hd2 : 1 ≤ dval m2 := by omega
    obtain ⟨ha, hb⟩ := digit_one_le m2 h2 hd2
    simp [monthAlts, firstMonthDay, ha, hb, hday]
  · have hc : m1 = '1' := (digit_eq_of_dval m1 h1 1 hv).trans (by decide)
    subst hc
    have hm2 : dval m2 ≤ 2 := by omega
    have hb0 : '0' ≤ m2 := by
      refine char_le_of_toNat _ _ ?_
      have := digit_toNat_bounds m2 h2
      show 48 ≤ m2.toNat
      omega
    have hb2 : m2 ≤ '2' := by
      refine char_le_of_toNat _ _ ?_
      have := digit_toNat_bounds m2 h2
      unfold dval at hm2
      show m2.toNat ≤ 50
      omega
    simp [monthAlts, firstMonthDay, hb0, hb2, hday, show dval '1' = 1 from rfl]

/-- Every month length is at most 31. -/
lemma daysInMonth_le_31 (y m : Nat) : daysInMonth y m ≤ 31 := by
  unfold daysInMonth
  split
  · split <;> decide
  · split <;> decide

/-- Every string of the strict `YYYY-MM-DD` shape with valid calendar
values is accepted by the CPython parser. -/
lemma strptime_of_spec (s : String) (h : matchesIsoDateSpec s = true) :
    (strptimeYmd s).isSome = true := by
  unfold matchesIsoDateSpec at h
  split at h
  case h_2 => exact absurd h (by simp)
  case h_1 y1 y2 y3 y4 h1 m1 m2 h2 d1 d2 heq =>
    simp only [Bool.and_eq_true, beq_iff_eq] at h
    obtain ⟨⟨⟨⟨⟨⟨⟨⟨⟨hy1, hy2⟩, hy3⟩, hy4⟩, hh1⟩, hm1⟩, hm2⟩, hh2⟩, hd1⟩, hd2⟩ := h.1
    have hcal := h.2
    subst hh1
    subst hh2
    simp only [decide_eq_true_eq, Bool.and_eq_true] at hcal
    obtain ⟨⟨⟨⟨hy, hmlo⟩, hmhi⟩, hdlo⟩, hdhi⟩ := hcal
    have hday : dayFirst [d1, d2] = some (10 * dval d1 + dval d2, []) := by
      refine dayFirst_digits d1 d2 hd1 hd2 ?_ ?_
      · omega
      · have := daysInMonth_le_31
          ((((dval y1) * 10 + dval y2) * 10 + dval y3) * 10 + dval y4)
          (10 * dval m1 + dval m2)
        omega
    have hmonth := firstMonthDay_digits m1 m2 [d1, d2]
      (10 * dval d1 + dval d2) [] hm1 hm2 hmlo hmhi hday
    unfold strptimeYmd
    rw [heq]
    simp [year4, hy1, hy2, hy3, hy4, hmonth, validYmd, hy, hdhi]

/-- Claim C1, counterexample: a fetched page that deserializes as a
mapping without `collection` but whose `messages` payload is exactly the
explicit empty-result signal (a `no posts found` status, no error entry)
makes `_fetch_data` raise `ValueError("API error: Unknown error")`; it
does not return an empty page. -/
theorem c1_empty_signal_counterexample :
    fetchDataValidate (.dict ⟨none, some [⟨none, none, some "no posts found"⟩]⟩) =
      .error (.valueError "API error: Unknown error") ∧
    (fetchDataValidate
      (.dict ⟨none, some [⟨none, none, some "no posts found"⟩]⟩)).isOk = false :=
  ⟨rfl, rfl⟩

/-- Claim C1 (amended): when a fetched page deserializes as a mapping
that lacks the `collection` field, `_fetch_data` always raises a
`ValueError` — with text `API error:` followed by `messages[0]`'s `error`
entry (or `Unknown error` when that entry is absent, even for an explicit
empty-result signal) when `messages` is present and non-empty, and with
text `API response missing 'collection' field` otherwise.  An empty
PageResult is never returned for a missing `collection`. -/
theorem c1_missing_collection_always_raises (d : ApiData)
    (h : d.collection = none) :
    fetchDataValidate (.dict d) = .error (.valueError
      (match d.messages with
       | some (m :: _) => "API error: " ++ (m.error.getD "Unknown error")
       | _ => "API response missing 'collection' field")) := by
  obtain ⟨col, msgs⟩ := d
  simp only at h
  subst h
  rcases msgs with _ | ⟨_ | ⟨m, ms⟩⟩ <;> rfl

/-- Claim C1, witness: the amended theorem applied to a mapping whose
first message carries a genuine error entry. -/
theorem c1_witness :
    fetchDataValidate (.dict ⟨none, some [⟨some "0", some "bad request", none⟩]⟩) =
      .error (.valueError "API error: bad request") :=
  c1_missing_collection_always_raises ⟨none, some [⟨some "0", some "bad request", none⟩]⟩ rfl

/-- Claim C3, counterexample: for the most-recent-count interval `5`,
server `biorxiv` and cursor `0`, the URL built by `_build_api_url` is not
`{base}/{source}/{interval}/{cursor}`: the code appends a trailing
`/json` path segment. -/
theorem c3_url_shape_counterexample :
    buildApiUrl (some "5") none none "biorxiv" "0" ≠
      "https://api.biorxiv.org/details/biorxiv/5/0" ∧
    buildApiUrl (some "5") none none "biorxiv" "0" =
      "https://api.biorxiv.org/details/biorxiv/5/0/json" := by
  constructor
  · decide
  · rfl

/-- Claim C3 (amended): the request URL is exactly
`{base}/{source}/{interval}/{cursor}/json` — with a trailing `json`
segment after the cursor — where `interval` is the canonical textual
interval form: the bare count or `{N}d` query string when one is set, and
`{start}/{end}` when both dates are set and no count query is. -/
theorem c3_url_shape_amended (sd ed : Option String) (server cursor : String) :
    (∀ q : String, q ≠ "" → (strIsDigit q || strEndsWithD q) = true →
      buildApiUrl (some q) sd ed server cursor =
        "https://api.biorxiv.org/details/" ++ server ++ "/" ++ q ++ "/" ++
          cursor ++ "/json") ∧
    (∀ s e : String, s ≠ "" → e ≠ "" →
      buildApiUrl none (some s) (some e) server cursor =
        "https://api.biorxiv.org/details/" ++ server ++ "/" ++ s ++ "/" ++ e ++
          "/" ++ cursor ++ "/json") := by
  constructor
  · intro q hq hform
    unfold buildApiUrl
    simp [strTruthy, hq, hform]
  · intro s e hs he
    unfold buildApiUrl
    simp [strTruthy, hs, he, String.append_assoc]

/-- Claim C3, witness: the amended theorem applied to a most-recent count
on medrxiv, a trailing-days interval, and a date range on biorxiv. -/
theorem c3_witness :
    buildApiUrl (some "75") none none "medrxiv" "100" =
      "https://api.biorxiv.org/details/medrxiv/75/100/json" ∧
    buildApiUrl (some "7d") none none "biorxiv" "0" =
      "https://api.biorxiv.org/details/biorxiv/7d/0/json" ∧
    buildApiUrl none (some "2024-01-01") (some "2024-01-31") "biorxiv" "0" =
      "https://api.biorxiv.org/details/biorxiv/2024-01-01/2024-01-31/0/json" :=
  ⟨(c3_url_shape_amended none none "medrxiv" "100").1 "75" (by decide) (by decide),
   (c3_url_shape_amended none none "biorxiv" "0").1 "7d" (by decide) (by decide),
   (c3_url_shape_amended none none "biorxiv" "0").2 "2024-01-01" "2024-01-31"
     (by decide) (by decide)⟩

/-- Claim C4, counterexample: the string `2024-1-1` does not match the
`YYYY-MM-DD` pattern (its month and day are not two digits), yet
`date_range` accepts it, because CPython `strptime` tolerates unpadded
month and day fields. -/
theorem c4_date_validation_counterexample :
    matchesIsoDateSpec "2024-1-1" = false ∧
    QueryBuilder.date_range {} "2024-1-1" "2024-01-02" =
      .ok { start_date := some "2024-1-1", end_date := some "2024-01-02" } :=
  ⟨rfl, rfl⟩

/-- Claim C4 (amended): `date_range` fails with a `ValueError` exactly on
the strings rejected by CPython `strptime("%Y-%m-%d")` — whichever of the
two arguments fails first names itself in the message — and that parser
accepts every strict `YYYY-MM-DD` string with valid calendar values, but
also accepts some strings outside the strict pattern (unpadded month or
day).  The check is pure builder validation, before any network call. -/
theorem c4_date_validation_amended :
    (∀ (b : QueryBuilder) (s e : String), strptimeYmd s = none →
      b.date_range s e =
        .error ("Invalid date format: " ++ s ++
          ". Date must be in YYYY-MM-DD format")) ∧
    (∀ (b : QueryBuilder) (s e : String), (strptimeYmd s).isSome = true →
      strptimeYmd e = none →
      b.date_range s e =
        .error ("Invalid date format: " ++ e ++
          ". Date must be in YYYY-MM-DD format")) ∧
    (∀ s : String, matchesIsoDateSpec s = true → (strptimeYmd s).isSome = true) := by
  refine ⟨?_, ?_, strptime_of_spec⟩
  · intro b s e hs
    unfold QueryBuilder.date_range validateDate
    rw [hs]
  · intro b s e hs he
    obtain ⟨v, hv⟩ := Option.isSome_iff_exists.mp hs
    unfold QueryBuilder.date_range validateDate
    rw [hv, he]

/-- Claim C4, witness: the amended theorem applied to a failing start
date, a failing end date, and a strict well-formed date. -/
theorem c4_witness :
    QueryBuilder.date_range {} "2024-99-99" "2024-01-01" =
      .error "Invalid date format: 2024-99-99. Date must be in YYYY-MM-DD format" ∧
    QueryBuilder.date_range {} "2024-01-01" "x" =
      .error "Invalid date format: x. Date must be in YYYY-MM-DD format" ∧
    (strptimeYmd "2024-01-15").isSome = true :=
  ⟨c4_date_validation_amended.1 {} "2024-99-99" "2024-01-01" rfl,
   c4_date_validation_amended.2.1 {} "2024-01-01" "x" rfl rfl,
   c4_date_validation_amended.2.2 "2024-01-15" rfl⟩

/-- A successful `date_range` call records exactly the two dates. -/
lemma date_range_ok (b : QueryBuilder) (s e : String) (b1 : QueryBuilder)
    (h : b.date_range s e = .ok b1) :
    b1 = { b with start_date := some s, end_date := some e } := by
  unfold QueryBuilder.date_range at h
  split at h
  · exact absurd h (by simp)
  · split at h
    · exact absurd h (by simp)
    · injection h with h
      exact h.symm

/-- A successful `most_recent` call records exactly the count. -/
lemma most_recent_ok (b : QueryBuilder) (n : Int) (b1 : QueryBuilder)
    (h : b.most_recent n = .ok b1) :
    b1 = { b with recent_papers := some n } := by
  unfold QueryBuilder.most_recent at h
  split at h
  · exact absurd h (by simp)
  · injection h with h
    exact h.symm

/-- A successful `last_days` call records exactly the day count. -/
lemma last_days_ok (b : QueryBuilder) (n : Int) (b1 : QueryBuilder)
    (h : b.last_days n = .ok b1) :
    b1 = { b with recent_days := some n } := by
  unfold QueryBuilder.last_days at h
  split at h
  · exact absurd h (by simp)
  · injection h with h
    exact h.symm

/-- A successful `from_servers` call touches only the server list. -/
lemma from_servers_ok (b : QueryBuilder) (ss : List String) (b1 : QueryBuilder)
    (h : b.from_servers ss = .ok b1) :
    b1 = { b with servers := ss.map strToLower } := by
  unfold QueryBuilder.from_servers at h
  split at h
  · injection h with h
    exact h.symm
  · exact absurd h (by simp)

/-- Running a call chain that succeeds marks an interval field as set
exactly when it was set before or a call of that kind occurs in the
chain. -/
lemma applyCalls_fields (cs : List BuilderCall) (b b2 : QueryBuilder)
    (h : applyCalls b cs = .ok b2) :
    b2.start_date.isSome = (b.start_date.isSome || cs.any isDateRangeCall) ∧
    b2.recent_papers.isSome = (b.recent_papers.isSome || cs.any isMostRecentCall) ∧
    b2.recent_days.isSome = (b.recent_days.isSome || cs.any isLastDaysCall) := by
  induction cs generalizing b with
  | nil =>
    unfold applyCalls at h
    injection h with h
    subst h
    simp
  | cons c cs ih =>
    unfold applyCalls at h
    revert h
    cases hc : applyCall b c with
    | error e => intro h; exact absurd h (by simp)
    | ok b1 =>
      intro h
      obtain ⟨i1, i2, i3⟩ := ih b1 h
      cases c with
      | dateRange s e =>
        have hb1 := date_range_ok b s e b1 hc
        subst hb1
        refine ⟨?_, ?_, ?_⟩ <;>
          simp [i1, i2, i3, isDateRangeCall, isMostRecentCall, isLastDaysCall]
      | mostRecent n =>
        have hb1 := most_recent_ok b n b1 hc
        subst hb1
        refine ⟨?_, ?_, ?_⟩ <;>
          simp [i1, i2, i3, isDateRangeCall, isMostRecentCall, isLastDaysCall]
      | lastDays n =>
        have hb1 := last_days_ok b n b1 hc
        subst hb1
        refine ⟨?_, ?_, ?_⟩ <;>
          simp [i1, i2, i3, isDateRangeCall, isMostRecentCall, isLastDaysCall]
      | fromServers ss =>
        have hb1 := from_servers_ok b ss b1 hc
        subst hb1
        refine ⟨?_, ?_, ?_⟩ <;>
          simp [i1, i2, i3, isDateRangeCall, isMostRecentCall, isLastDaysCall]

/-- Claim C8, counterexample: two interval-selector calls — both
`date_range` — are invoked on one builder, and `build()` still succeeds
(the second call merely overwrites the first), producing query
parameters. -/
theorem c8_exclusivity_counterexample :
    applyCalls {} [.dateRange "2024-01-01" "2024-01-31",
                   .dateRange "2024-02-01" "2024-02-28"] =
      .ok { start_date := some "2024-02-01", end_date := some "2024-02-28" } ∧
    QueryBuilder.build
      { start_date := some "2024-02-01", end_date := some "2024-02-28" }
      "2024-01-12" "2024-02-11" =
      .ok ⟨none, some "2024-02-01", some "2024-02-28", ["biorxiv"]⟩ :=
  ⟨rfl, rfl⟩

/-- Claim C8 (amended): for every builder obtained by a successful call
chain that contains interval-selector calls of two or more distinct
kinds (among `date_range`, `most_recent`, `last_days`), `build()` fails
with the combine `ValueError`.  Repeated calls of one same kind
overwrite each other and do not make `build()` fail. -/
theorem c8_exclusivity_amended (cs : List BuilderCall) (b2 : QueryBuilder)
    (h : applyCalls {} cs = .ok b2)
    (htwo : ((cs.any isDateRangeCall && cs.any isMostRecentCall) ||
             (cs.any isDateRangeCall && cs.any isLastDaysCall) ||
             (cs.any isMostRecentCall && cs.any isLastDaysCall)) = true)
    (ds de : String) :
    b2.build ds de =
      .error "Cannot combine different query types. Use either date_range, most_recent, or last_days." := by
  obtain ⟨h1, h2, h3⟩ := applyCalls_fields cs {} b2 h
  simp only [Bool.false_or, show (QueryBuilder.start_date {}).isSome = false from rfl,
    show (QueryBuilder.recent_papers {}).isSome = false from rfl,
    show (QueryBuilder.recent_days {}).isSome = false from rfl] at h1 h2 h3
  have hgt : intervalFieldsSet b2 > 1 := by
    unfold intervalFieldsSet
    rw [h1, h2, h3]
    cases hA : cs.any isDateRangeCall <;> cases hB : cs.any isMostRecentCall <;>
      cases hC : cs.any isLastDaysCall <;> simp_all
  unfold QueryBuilder.build
  rw [if_pos hgt]

/-- Claim C8, witness: a chain with a `date_range` and a `most_recent`
call, on which `build()` fails. -/
theorem c8_witness :
    QueryBuilder.build
      { start_date := some "2024-01-01", end_date := some "2024-01-31",
        recent_papers := some 3 } "2024-01-12" "2024-02-11" =
      .error "Cannot combine different query types. Use either date_range, most_recent, or last_days." :=
  c8_exclusivity_amended
    [.dateRange "2024-01-01" "2024-01-31", .mostRecent 3] _ rfl rfl
    "2024-01-12" "2024-02-11"

/-- A zero cap is Python-falsy: the guard never fires. -/
lemma capReached_zero (total : Nat) : capReached (some 0) total = false := rfl

/-- Page processing with cap 0 behaves as with no cap at all. -/
lemma processItems_zero (server : String) (items : List RawItem)
    (docs : List Document) (total : Nat) :
    processItems server (some 0) items docs total =
      processItems server none items docs total := by
  induction items generalizing docs total with
  | nil => rfl
  | cons item rest ih =>
    unfold processItems
    simp only [capReached_zero, show ∀ t, capReached none t = false from fun _ => rfl,
      Bool.false_eq_true, if_false]
    exact ih _ _

/-- The pagination loop with cap 0 behaves as with no cap at all. -/
lemma loadLoop_zero_cap (httpGet : String → Except FetchError ApiBody)
    (q sd ed : Option String) (server : String) :
    ∀ (fuel : Nat) (cursor : Option String) (docs : List Document)
      (total fetches : Nat),
    loadLoop httpGet q sd ed server (some 0) fuel cursor docs total fetches =
      loadLoop httpGet q sd ed server none fuel cursor docs total fetches := by
  intro fuel
  induction fuel with
  | zero => intro _ _ _ _; rfl
  | succ n ih =>
    intro cursor docs total fetches
    unfold loadLoop
    simp only [processItems_zero, ih]

/-- The per-server drain with cap 0 behaves as with no cap at all. -/
lemma loadFromServer_zero_cap (httpGet : String → Except FetchError ApiBody)
    (q sd ed : Option String) (server : String) (fuel : Nat) :
    loadFromServer httpGet q sd ed server (some 0) fuel =
      loadFromServer httpGet q sd ed server none fuel := by
  unfold loadFromServer
  exact loadLoop_zero_cap httpGet q sd ed server fuel (some "0") [] 0 0

/-- Draining every server with cap 0 behaves as with no cap at all. -/
lemma drainAll_zero_cap (httpGet : String → Except FetchError ApiBody)
    (q sd ed : Option String) (fuel : Nat) (servers : List String) :
    drainAll httpGet q sd ed (some 0) fuel servers =
      drainAll httpGet q sd ed none fuel servers := by
  induction servers with
  | nil => rfl
  | cons s rest ih =>
    unfold drainAll
    rw [loadFromServer_zero_cap, ih]

/-- Claim C10: constructing the loader with `max_results = 0` disables
the cap entirely — the zero value is Python-falsy, so both the per-server
drain guard and the post-merge truncation skip it, and `load` behaves
exactly as with no cap set, returning every fetched document. -/
theorem c10_max_results_zero_uncapped (httpGet : String → Except FetchError ApiBody)
    (q sd ed : Option String) (servers : List String) (fuel : Nat) :
    load httpGet q sd ed servers (some 0) fuel =
      load httpGet q sd ed servers none fuel := by
  unfold load
  simp only [loadFromServer_zero_cap, drainAll_zero_cap,
    show ∀ docs, applyCap (some 0) docs = applyCap none docs from fun _ => rfl]

/-- Code-point comparison is reflexive. -/
lemma charListLe_refl : ∀ xs : List Char, charListLe xs xs = true := by
  intro xs
  induction xs with
  | nil => rfl
  | cons a as ih => simp [charListLe, ih]

/-- Code-point comparison is total. -/
lemma charListLe_total : ∀ xs ys : List Char,
    charListLe xs ys = true ∨ charListLe ys xs = true := by
  intro xs
  induction xs with
  | nil => intro ys; left; rfl
  | cons a as ih =>
    intro ys
    cases ys with
    | nil => right; rfl
    | cons b bs =>
      by_cases hab : a = b
      · subst hab
        rcases ih bs with h | h
        · left; simpa [charListLe] using h
        · right; simpa [charListLe] using h
      · rcases lt_or_gt_of_ne hab with h | h
        · left; simp [charListLe, hab, h]
        · right; simp [charListLe, Ne.symm hab, h]

/-- Code-point comparison is transitive. -/
lemma charListLe_trans : ∀ xs ys zs : List Char,
    charListLe xs ys = true → charListLe ys zs = true →
    charListLe xs zs = true := by
  intro xs
  induction xs with
  | nil => intro ys zs _ _; rfl
  | cons a as ih =>
    intro ys zs h1 h2
    cases ys with
    | nil => simp [charListLe] at h1
    | cons b bs =>
      cases zs with
      | nil => simp [charListLe] at h2
      | cons c cs =>
        by_cases hab : a = b <;> by_cases hbc : b = c
        · subst hab; subst hbc
          simp only [charListLe, if_pos rfl] at h1 h2 ⊢
          exact ih bs cs h1 h2
        · subst hab
          simp only [charListLe, if_pos rfl, if_neg hbc] at h2
          simp only [charListLe, if_neg hbc]
          exact h2
        · subst hbc
          simp only [charListLe, if_neg hab, if_pos rfl]
          simp only [charListLe, if_neg hab] at h1
          exact h1
        · simp only [charListLe, if_neg hab] at h1
          simp only [charListLe, if_neg hbc] at h2
          have hac : a < c := lt_trans (of_decide_eq_true h1) (of_decide_eq_true h2)
          have hne : a ≠ c := ne_of_lt hac
          simp [charListLe, hne, hac]

/-- The date comparator is total. -/
lemma dateGe_total (a b : Document) : dateGe a b = true ∨ dateGe b a = true :=
  charListLe_total b.metadata.date.data a.metadata.date.data

/-- The date comparator is transitive. -/
lemma dateGe_trans (a b c : Document) (h1 : dateGe a b = true)
    (h2 : dateGe b c = true) : dateGe a c = true :=
  charListLe_trans c.metadata.date.data b.metadata.date.data a.metadata.date.data
    h2 h1

/-- Inserting keeps the same elements. -/
lemma insertDesc_perm (le : Document → Document → Bool) (a : Document) :
    ∀ l : List Document, (insertDesc le a l).Perm (a :: l) := by
  intro l
  induction l with
  | nil => exact List.Perm.refl _
  | cons b bs ih =>
    unfold insertDesc
    by_cases hab : le a b = true
    · simp [hab]
    · simp only [hab, if_false, Bool.false_eq_true]
      exact (List.Perm.cons b ih).trans (List.Perm.swap a b bs)

/-- Stable sorting keeps the same elements. -/
lemma sortStable_perm (le : Document → Document → Bool) :
    ∀ l : List Document, (sortStable le l).Perm l := by
  intro l
  induction l with
  | nil => exact List.Perm.refl _
  | cons a as ih =>
    unfold sortStable
    exact ((insertDesc_perm le a (sortStable le as)).trans (ih.cons a))

/-- Inserting into a sorted list keeps it sorted, for a total transitive
comparator. -/
lemma insertDesc_pairwise (le : Document → Document → Bool)
    (htot : ∀ a b, le a b = true ∨ le b a = true)
    (htr : ∀ a b c, le a b = true → le b c = true → le a c = true)
    (a : Document) :
    ∀ l : List Document, List.Pairwise (fun x y => le x y = true) l →
    List.Pairwise (fun x y => le x y = true) (insertDesc le a l) := by
  intro l
  induction l with
  | nil => intro _; simp [insertDesc]
  | cons b bs ih =>
    intro hl
    rcases List.pairwise_cons.mp hl with ⟨hb, hbs⟩
    unfold insertDesc
    by_cases hab : le a b = true
    · simp only [hab, if_true]
      refine List.pairwise_cons.mpr ⟨?_, hl⟩
      intro x hx
      rcases List.mem_cons.mp hx with hx | hx
      · subst hx; exact hab
      · exact htr a b x hab (hb x hx)
    · simp only [hab, if_false, Bool.false_eq_true]
      refine List.pairwise_cons.mpr ⟨?_, ih hbs⟩
      intro x hx
      have hx2 := (insertDesc_perm le a bs).mem_iff.mp hx
      rcases List.mem_cons.mp hx2 with hx2 | hx2
      · rcases htot a b with h | h
        · exact absurd h hab
        · rw [hx2]; exact h
      · exact hb x hx2

/-- Stable insertion sort sorts, for a total transitive comparator. -/
lemma sortStable_pairwise (le : Document → Document → Bool)
    (htot : ∀ a b, le a b = true ∨ le b a = true)
    (htr : ∀ a b c, le a b = true → le b c = true → le a c = true) :
    ∀ l : List Document,
    List.Pairwise (fun x y => le x y = true) (sortStable le l) := by
  intro l
  induction l with
  | nil => exact List.Pairwise.nil
  | cons a as ih =>
    unfold sortStable
    exact insertDesc_pairwise le htot htr a _ ih

/-- Inserting an element the predicate rejects leaves the filtered
subsequence unchanged. -/
lemma filter_insertDesc_neg (le : Document → Document → Bool) (a : Document)
    (p : Document → Bool) (hpa : p a = false) :
    ∀ l : List Document, (insertDesc le a l).filter p = l.filter p := by
  intro l
  induction l with
  | nil => simp [insertDesc, hpa]
  | cons b bs ih =>
    unfold insertDesc
    by_cases hab : le a b = true
    · simp [hab, List.filter_cons, hpa]
    · simp only [hab, if_false, Bool.false_eq_true]
      simp [List.filter_cons, ih]

/-- Inserting an element the predicate accepts puts it in front of the
filtered subsequence, when every accepted element compares at least as
late as the inserted one. -/
lemma filter_insertDesc_pos (le : Document → Document → Bool) (a : Document)
    (p : Document → Bool) (hpa : p a = true)
    (hcomp : ∀ b, p b = true → le a b = true) :
    ∀ l : List Document, (insertDesc le a l).filter p = a :: l.filter p := by
  intro l
  induction l with
  | nil => simp [insertDesc, hpa]
  | cons b bs ih =>
    unfold insertDesc
    by_cases hab : le a b = true
    · simp [hab, List.filter_cons, hpa]
    · have hpb : p b = false := by
        by_cases hpb : p b = true
        · exact absurd (hcomp b hpb) hab
        · simpa using hpb
      simp only [hab, if_false, Bool.false_eq_true]
      simp [List.filter_cons, hpb, ih]

/-- Stable insertion sort preserves each tied class in input order:
filtering with a predicate whose accepted elements are mutually tied
commutes with the sort. -/
lemma sortStable_filter (le : Document → Document → Bool) (p : Document → Bool)
    (hcomp : ∀ a b, p a = true → p b = true → le a b = true) :
    ∀ l : List Document, (sortStable le l).filter p = l.filter p := by
  intro l
  induction l with
  | nil => rfl
  | cons a as ih =>
    unfold sortStable
    by_cases hpa : p a = true
    · rw [filter_insertDesc_pos le a p hpa (fun b hb => hcomp a b hpa hb)]
      simp [List.filter_cons, hpa, ih]
    · have hpa2 : p a = false := by simpa using hpa
      rw [filter_insertDesc_neg le a p hpa2]
      simp [List.filter_cons, hpa2, ih]

/-- Claim C7: a multi-source load without a result cap returns exactly the
concatenation of the per-source sequences sorted by `metadata.date`
descending, the output is a permutation of that concatenation, it is
pairwise date-descending, and the sort is stable: for every date value,
the documents carrying it appear in the same relative order as in the
concatenated per-source input.  (With a result cap set, the same sorted
sequence is further truncated; claim C2 covers the cap.) -/
theorem c7_merge_sorted_stable (httpGet : String → Except FetchError ApiBody)
    (q sd ed : Option String) (s1 s2 : String) (rest : List String) (fuel : Nat)
    (lists : List (List Document))
    (h : drainAll httpGet q sd ed none fuel (s1 :: s2 :: rest) = some (.ok lists)) :
    load httpGet q sd ed (s1 :: s2 :: rest) none fuel =
      some (.ok (sortStable dateGe lists.flatten)) ∧
    (sortStable dateGe lists.flatten).Perm lists.flatten ∧
    List.Pairwise (fun a b => dateGe a b = true) (sortStable dateGe lists.flatten) ∧
    (∀ dte : String,
      (sortStable dateGe lists.flatten).filter (fun x => x.metadata.date == dte) =
        lists.flatten.filter (fun x => x.metadata.date == dte)) := by
  refine ⟨?_, sortStable_perm _ _,
    sortStable_pairwise _ dateGe_total dateGe_trans _, ?_⟩
  · unfold load
    simp only [h]
    simp [applyCap]
  · intro dte
    refine sortStable_filter dateGe _ ?_ _
    intro a b ha hb
    have ha2 : a.metadata.date = dte := by simpa using ha
    have hb2 : b.metadata.date = dte := by simpa using hb
    unfold dateGe pyStrLe
    rw [ha2, hb2]
    exact charListLe_refl _

/-- Claim C7, witness: the theorem applied to a concrete two-server load
of two documents each. -/
theorem c7_witness :
    load c7HttpGet (some "5") none none ["biorxiv", "medrxiv"] none 1 =
      some (.ok (sortStable dateGe c7Lists.flatten)) ∧
    (sortStable dateGe c7Lists.flatten).Perm c7Lists.flatten ∧
    List.Pairwise (fun a b => dateGe a b = true) (sortStable dateGe c7Lists.flatten) ∧
    (∀ dte : String,
      (sortStable dateGe c7Lists.flatten).filter (fun x => x.metadata.date == dte) =
        c7Lists.flatten.filter (fun x => x.metadata.date == dte)) :=
  c7_merge_sorted_stable c7HttpGet (some "5") none none "biorxiv" "medrxiv" [] 1
    c7Lists rfl

/-- A server list whose drains all terminate within the fuel has a
terminating `drainAll`. -/
lemma drainAll_ne_none (httpGet : String → Except FetchError ApiBody)
    (q sd ed : Option String) (m : Option Nat) (fuel : Nat) :
    ∀ servers : List String,
    (∀ s ∈ servers, loadFromServer httpGet q sd ed s m fuel ≠ none) →
    drainAll httpGet q sd ed m fuel servers ≠ none := by
  intro servers
  induction servers with
  | nil => intro _; simp [drainAll]
  | cons s rest ih =>
    intro hall
    unfold drainAll
    have hs := hall s (List.mem_cons_self s rest)
    have hr := ih (fun x hx => hall x (List.mem_cons_of_mem s hx))
    cases hds : loadFromServer httpGet q sd ed s m fuel with
    | none => exact absurd hds hs
    | some r1 =>
      cases hdr : drainAll httpGet q sd ed m fuel rest with
      | none => exact absurd hdr hr
      | some r2 =>
        cases r1 with
        | error e => simp
        | ok v =>
          cases r2 with
          | error e => simp
          | ok rs => obtain ⟨ds, n⟩ := v; simp

/-- When exactly one server fails (with every other drain succeeding),
`drainAll` yields precisely that failure. -/
lemma drainAll_unique_error (httpGet : String → Except FetchError ApiBody)
    (q sd ed : Option String) (m : Option Nat) (fuel : Nat) :
    ∀ (servers : List String) (t : String) (e : FetchError),
    t ∈ servers →
    loadFromServer httpGet q sd ed t m fuel = some (.error e) →
    (∀ s ∈ servers, s ≠ t →
      ∃ r, loadFromServer httpGet q sd ed s m fuel = some (.ok r)) →
    drainAll httpGet q sd ed m fuel servers = some (.error e) := by
  intro servers
  induction servers with
  | nil => intro t e hmem; exact absurd hmem (List.not_mem_nil t)
  | cons s rest ih =>
    intro t e hmem herr hok
    have hrest_ne : drainAll httpGet q sd ed m fuel rest ≠ none := by
      refine drainAll_ne_none httpGet q sd ed m fuel rest ?_
      intro x hx
      by_cases hxt : x = t
      · subst hxt; rw [herr]; simp
      · obtain ⟨r, hr⟩ := hok x (List.mem_cons_of_mem s hx) hxt
        rw [hr]; simp
    by_cases hst : s = t
    · subst hst
      unfold drainAll
      rw [herr]
      cases hdr : drainAll httpGet q sd ed m fuel rest with
      | none => exact absurd hdr hrest_ne
      | some r2 => rfl
    · obtain ⟨r, hr⟩ := hok s (List.mem_cons_self s rest) hst
      have htr : t ∈ rest := by
        rcases List.mem_cons.mp hmem with h | h
        · exact absurd h.symm hst
        · exact h
      have hdr := ih t e htr herr
        (fun x hx hxt => hok x (List.mem_cons_of_mem s hx) hxt)
      unfold drainAll
      rw [hr, hdr]

/-- Claim C9: in a multi-source load whose per-source drains all
terminate, if exactly one source fails with an error, `load` raises that
very error and returns no document list at all. -/
theorem c9_all_or_nothing (httpGet : String → Except FetchError ApiBody)
    (q sd ed : Option String) (m : Option Nat) (fuel : Nat)
    (s1 s2 : String) (rest : List String) (t : String) (e : FetchError)
    (hmem : t ∈ s1 :: s2 :: rest)
    (herr : loadFromServer httpGet q sd ed t m fuel = some (.error e))
    (hok : ∀ s ∈ s1 :: s2 :: rest, s ≠ t →
      ∃ r, loadFromServer httpGet q sd ed s m fuel = some (.ok r)) :
    load httpGet q sd ed (s1 :: s2 :: rest) m fuel = some (.error e) := by
  have hd := drainAll_unique_error httpGet q sd ed m fuel (s1 :: s2 :: rest)
    t e hmem herr hok
  unfold load
  simp only [hd]

/-- Claim C9, witness: the theorem applied to two concrete servers of
which medrxiv fails with a transport error. -/
theorem c9_witness :
    load c9HttpGet (some "5") none none ["biorxiv", "medrxiv"] none 1 =
      some (.error (.connectionError "Failed to fetch data from API: boom")) := by
  refine c9_all_or_nothing c9HttpGet (some "5") none none none 1 "biorxiv" "medrxiv" []
    "medrxiv" (.connectionError "Failed to fetch data from API: boom")
    (by simp) rfl ?_
  intro s hs hne
  rcases List.mem_cons.mp hs with h | h
  · subst h
    exact ⟨([processItem { date := "2024-01-10" } "biorxiv"], 1), rfl⟩
  · rcases List.mem_cons.mp h with h2 | h2
    · exact absurd h2 hne
    · exact absurd h2 (List.not_mem_nil s)

/-- Processing a page that cannot reach the cap appends every record and
does not return early. -/
lemma processItems_short (server : String) (K : Nat) :
    ∀ (items : List RawItem) (docs : List Document) (total : Nat),
    total + items.length < K →
    processItems server (some K) items docs total =
      (docs ++ items.map (fun it => processItem it server),
       total + items.length, false) := by
  intro items
  induction items with
  | nil => intro docs total h; simp [processItems]
  | cons it rest ih =>
    intro docs total h
    unfold processItems
    have hc : ¬ K ≤ total + 1 := by
      have := List.length_cons it rest
      omega
    have hcap : capReached (some K) (total + 1) = false := by
      unfold capReached
      simp [hc]
    simp only [hcap, Bool.false_eq_true, if_false]
    rw [ih (docs ++ [processItem it server]) (total + 1) (by simp at h ⊢; omega)]
    simp [List.append_assoc]
    omega

/-- Processing a page that reaches the cap appends exactly the records up
to the cap and returns early. -/
lemma processItems_reach (server : String) (K : Nat) (hK : 1 ≤ K) :
    ∀ (items : List RawItem) (docs : List Document) (total : Nat),
    total < K → K ≤ total + items.length →
    processItems server (some K) items docs total =
      (docs ++ (items.take (K - total)).map (fun it => processItem it server),
       K, true) := by
  intro items
  induction items with
  | nil =>
    intro docs total h1 h2
    exfalso
    simp at h2
    omega
  | cons it rest ih =>
    intro docs total h1 h2
    unfold processItems
    by_cases hc : K ≤ total + 1
    · have hK1 : K = total + 1 := by omega
      have hcap : capReached (some K) (total + 1) = true := by
        unfold capReached
        have hz : (K == 0) = false := by
          simp only [beq_eq_false_iff_ne]
          omega
        simp [hz, hc]
      simp only [hcap, if_true]
      have ht : K - total = 1 := by omega
      rw [ht]
      simp [hK1]
    · have hcap : capReached (some K) (total + 1) = false := by
        unfold capReached
        simp [hc]
      simp only [hcap, Bool.false_eq_true, if_false]
      rw [ih (docs ++ [processItem it server]) (total + 1) (by omega)
        (by simp at h2 ⊢; omega)]
      have ht : K - total = (K - (total + 1)) + 1 := by omega
      rw [ht]
      simp [List.append_assoc]

/-- Any successful run of the capped pagination loop, started consistent
and strictly below the cap, returns at most `K` documents. -/
lemma loadLoop_le_cap (httpGet : String → Except FetchError ApiBody)
    (q sd ed : Option String) (server : String) (K : Nat) (hK : 1 ≤ K) :
    ∀ (fuel : Nat) (cursor : Option String) (docs : List Document)
      (total fetches : Nat) (docs2 : List Document) (f : Nat),
    docs.length = total → total < K →
    loadLoop httpGet q sd ed server (some K) fuel cursor docs total fetches =
      some (.ok (docs2, f)) →
    docs2.length ≤ K := by
  intro fuel
  induction fuel with
  | zero =>
    intro cursor docs total fetches docs2 f _ _ h
    simp [loadLoop] at h
  | succ n ih =>
    intro cursor docs total fetches docs2 f hlen htot h
    unfold loadLoop at h
    cases hf : fetchData httpGet (buildApiUrl q sd ed server (cursorStr cursor)) with
    | error e => simp only [hf] at h; simp at h
    | ok d =>
      simp only [hf] at h
      by_cases hbig : K ≤ total + (d.collection.getD []).length
      · rw [processItems_reach server K hK (d.collection.getD []) docs total htot hbig] at h
        simp only [Option.some.injEq, Except.ok.injEq, Prod.mk.injEq] at h
        obtain ⟨h1, h2⟩ := h
        subst h1
        simp [List.length_append, List.length_map, List.length_take]
        omega
      · rw [processItems_short server K (d.collection.getD []) docs total (by omega)] at h
        cases hm : d.messages.getD [] with
        | nil =>
          simp only [hm, Option.some.injEq, Except.ok.injEq, Prod.mk.injEq] at h
          obtain ⟨h1, h2⟩ := h
          subst h1
          simp [List.length_append, List.length_map]
          omega
        | cons m ms =>
          simp only [hm] at h
          by_cases hce : (m.cursor == cursor) = true
          · simp only [hce, if_true, Option.some.injEq, Except.ok.injEq,
              Prod.mk.injEq] at h
            obtain ⟨h1, h2⟩ := h
            subst h1
            simp [List.length_append, List.length_map]
            omega
          · simp only [hce, Bool.false_eq_true, if_false] at h
            exact ih m.cursor (docs ++ (d.collection.getD []).map
                (fun it => processItem it server))
              (total + (d.collection.getD []).length) (fetches + 1) docs2 f
              (by simp [List.length_append, List.length_map, hlen])
              (by omega) h

/-- Every per-server list a capped `drainAll` collects respects the cap. -/
lemma drainAll_le_cap (httpGet : String → Except FetchError ApiBody)
    (q sd ed : Option String) (K : Nat) (hK : 1 ≤ K) (fuel : Nat) :
    ∀ (servers : List String) (lists : List (List Document)),
    drainAll httpGet q sd ed (some K) fuel servers = some (.ok lists) →
    ∀ l ∈ lists, l.length ≤ K := by
  intro servers
  induction servers with
  | nil =>
    intro lists h
    simp only [drainAll, Option.some.injEq, Except.ok.injEq] at h
    subst h
    intro l hl
    exact absurd hl (List.not_mem_nil l)
  | cons s rest ih =>
    intro lists h
    unfold drainAll at h
    cases hds : loadFromServer httpGet q sd ed s (some K) fuel with
    | none => simp [hds] at h
    | some r1 =>
      cases hdr : drainAll httpGet q sd ed (some K) fuel rest with
      | none => simp only [hds, hdr] at h; cases r1 <;> simp at h
      | some r2 =>
        simp only [hds, hdr] at h
        cases r1 with
        | error e => simp at h
        | ok v =>
          cases r2 with
          | error e => simp at h
          | ok rs =>
            obtain ⟨ds, cnt⟩ := v
            simp only [Option.some.injEq, Except.ok.injEq] at h
            subst h
            intro l hl
            rcases List.mem_cons.mp hl with hl | hl
            · subst hl
              exact loadLoop_le_cap httpGet q sd ed s K hK fuel (some "0") [] 0 0
                l cnt rfl (by omega) hds
            · exact ih rs hdr l hl

/-- Claim C2, counterexample: with `maxResults = 1` and the `c2HttpGet`
sources, the code's `load` truncates each source to one document before
the merge, so the globally most recent record (2024-01-20, second within
the biorxiv page) never participates and the result is the 2024-01-15
medrxiv record — while a cap applied only once after the merge, as the
claim states, would return the 2024-01-20 record. -/
theorem c2_cap_counterexample :
    load c2HttpGet (some "5") none none ["biorxiv", "medrxiv"] (some 1) 1 =
      some (.ok [processItem { date := "2024-01-15" } "medrxiv"]) ∧
    loadCapOnlyAfterMerge c2HttpGet (some "5") none none ["biorxiv", "medrxiv"]
        (some 1) 1 =
      some (.ok [processItem { date := "2024-01-20" } "biorxiv"]) ∧
    load c2HttpGet (some "5") none none ["biorxiv", "medrxiv"] (some 1) 1 ≠
      loadCapOnlyAfterMerge c2HttpGet (some "5") none none ["biorxiv", "medrxiv"]
        (some 1) 1 := by
  refine ⟨rfl, rfl, ?_⟩
  rw [show load c2HttpGet (some "5") none none ["biorxiv", "medrxiv"] (some 1) 1 =
      some (.ok [processItem { date := "2024-01-15" } "medrxiv"]) from rfl]
  rw [show loadCapOnlyAfterMerge c2HttpGet (some "5") none none
      ["biorxiv", "medrxiv"] (some 1) 1 =
      some (.ok [processItem { date := "2024-01-20" } "biorxiv"]) from rfl]
  decide

/-- Claim C2 (amended): in a multi-source load with `maxResults = K ≥ 1`,
each per-source drain is itself truncated to at most K documents before
the merge; the merged sequence of those per-source-capped lists is then
date-sorted and truncated once more to its first K elements.  The cap is
therefore applied per source as well as after the merge, not only
once after it. -/
theorem c2_cap_amended (httpGet : String → Except FetchError ApiBody)
    (q sd ed : Option String) (s1 s2 : String) (rest : List String)
    (fuel K : Nat) (hK : 1 ≤ K) (lists : List (List Document))
    (h : drainAll httpGet q sd ed (some K) fuel (s1 :: s2 :: rest) =
      some (.ok lists)) :
    load httpGet q sd ed (s1 :: s2 :: rest) (some K) fuel =
      some (.ok ((sortStable dateGe lists.flatten).take K)) ∧
    ∀ l ∈ lists, l.length ≤ K := by
  constructor
  · unfold load
    simp only [h]
    have hz : (K == 0) = false := by
      simp only [beq_eq_false_iff_ne]
      omega
    simp [applyCap, hz]
  · exact drainAll_le_cap httpGet q sd ed K hK fuel _ lists h

/-- Claim C2, witness: the amended theorem applied to the concrete
two-server scenario with cap 1. -/
theorem c2_witness :
    load c2HttpGet (some "5") none none ["biorxiv", "medrxiv"] (some 1) 1 =
      some (.ok ((sortStable dateGe
        [[processItem { date := "2024-01-10" } "biorxiv"],
         [processItem { date := "2024-01-15" } "medrxiv"]].flatten).take 1)) ∧
    ∀ l ∈ [[processItem { date := "2024-01-10" } "biorxiv"],
           [processItem { date := "2024-01-15" } "medrxiv"]], l.length ≤ 1 :=
  c2_cap_amended c2HttpGet (some "5") none none "biorxiv" "medrxiv" [] 1 1
    (by omega)
    [[processItem { date := "2024-01-10" } "biorxiv"],
     [processItem { date := "2024-01-15" } "medrxiv"]] rfl

/-- Claim C6: the per-source pagination loop terminates at any page that
carries no continuation token (empty `messages` list) or echoes back the
cursor just used: the loop returns successfully having performed exactly
one more fetch, whatever fuel remains.  Instantiated at the initial
cursor, this is P3: against an API that always echoes the request cursor,
the drain terminates after fetching exactly one page. -/
theorem c6_pagination_stops (httpGet : String → Except FetchError ApiBody)
    (q sd ed : Option String) (server : String) (maxResults : Option Nat)
    (fuel : Nat) (hfuel : 1 ≤ fuel) (cursor : Option String)
    (docs : List Document) (total fetches : Nat) (d : ApiData)
    (hf : fetchData httpGet (buildApiUrl q sd ed server (cursorStr cursor)) =
      .ok d)
    (hstop : d.messages.getD [] = [] ∨
      ∃ m ms, d.messages.getD [] = m :: ms ∧ m.cursor = cursor) :
    ∃ out, loadLoop httpGet q sd ed server maxResults fuel cursor docs
      total fetches = some (.ok out) ∧ out.2 = fetches + 1 := by
  cases fuel with
  | zero => exact absurd hfuel (by omega)
  | succ n =>
    unfold loadLoop
    rcases hp : processItems server maxResults (d.collection.getD []) docs total
      with ⟨docs2, total2, fl⟩
    cases fl
    · rcases hstop with hm | ⟨m, ms, hm, hmc⟩
      · refine ⟨(docs2, fetches + 1), ?_, rfl⟩
        simp [hf, hp, hm]
      · have hce : (m.cursor == cursor) = true := by simp [hmc]
        refine ⟨(docs2, fetches + 1), ?_, rfl⟩
        simp [hf, hp, hm, hce]
    · refine ⟨(docs2, fetches + 1), ?_, rfl⟩
      simp [hf, hp]

/-- Claim C6, witness: against the echoing API, the drain (the loop
started at cursor `0` with empty accumulators) terminates with exactly
one page fetched, with plenty of fuel left. -/
theorem c6_witness :
    ∃ out, loadFromServer c6HttpGet (some "5") none none "biorxiv" none 5 =
      some (.ok out) ∧ out.2 = 1 :=
  c6_pagination_stops c6HttpGet (some "5") none none "biorxiv" none 5
    (by omega) (some "0") [] 0 0
    ⟨some [{ date := "2024-01-10" }], some [⟨some "0", none, none⟩]⟩ rfl
    (Or.inr ⟨⟨some "0", none, none⟩, [], rfl, rfl⟩)

/-- With every page non-empty, at least `i` records precede position
`i`. -/
lemma docsBefore_ge (page : Option String → ApiData)
    (hne : ∀ i, ((page (pageChain page i)).collection.getD []) ≠ []) :
    ∀ i, i ≤ docsBefore page i := by
  intro i
  induction i with
  | zero => omega
  | succ n ih =>
    have := List.length_pos.mpr (hne n)
    show n + 1 ≤ docsBefore page n +
      ((page (pageChain page n)).collection.getD []).length
    omega

/-- The capped pagination loop, run against an unbounded supply of
non-empty pages from a consistent chain position, returns exactly `K`
documents and stops on the page where the `K`-th record accumulates. -/
lemma loadLoop_cap_exact (httpGet : String → Except FetchError ApiBody)
    (q sd ed : Option String) (server : String) (K : Nat) (hK : 1 ≤ K)
    (page : Option String → ApiData)
    (hfetch : ∀ i, fetchData httpGet
      (buildApiUrl q sd ed server (cursorStr (pageChain page i))) =
      .ok (page (pageChain page i)))
    (hne : ∀ i, ((page (pageChain page i)).collection.getD []) ≠ [])
    (hfresh : ∀ i, ∃ m ms,
      (page (pageChain page i)).messages.getD [] = m :: ms ∧
      m.cursor ≠ pageChain page i) :
    ∀ (fuel i : Nat) (docs : List Document),
    docs.length = docsBefore page i → docsBefore page i < K →
    K - docsBefore page i ≤ fuel →
    ∃ docs2 f,
      loadLoop httpGet q sd ed server (some K) fuel (pageChain page i) docs
        (docsBefore page i) i = some (.ok (docs2, f)) ∧
      docs2.length = K ∧ i < f ∧
      docsBefore page (f - 1) < K ∧ K ≤ docsBefore page f := by
  intro fuel
  induction fuel with
  | zero =>
    intro i docs _ h2 h3
    exfalso
    omega
  | succ n ih =>
    intro i docs hlen hlt hfuel
    have hpos : 0 < ((page (pageChain page i)).collection.getD []).length :=
      List.length_pos.mpr (hne i)
    by_cases hbig : K ≤ docsBefore page i +
        ((page (pageChain page i)).collection.getD []).length
    · refine ⟨docs ++ (((page (pageChain page i)).collection.getD []).take
        (K - docsBefore page i)).map (fun it => processItem it server),
        i + 1, ?_, ?_, by omega, ?_, ?_⟩
      · unfold loadLoop
        simp only [hfetch i,
          processItems_reach server K hK _ docs _ hlt hbig]
      · simp only [List.length_append, List.length_map, List.length_take,
          hlen]
        omega
      · rw [Nat.add_sub_cancel]
        exact hlt
      · show K ≤ docsBefore page i +
          ((page (pageChain page i)).collection.getD []).length
        exact hbig
    · obtain ⟨m, ms, hm, hmc⟩ := hfresh i
      have hchain : pageChain page (i + 1) = m.cursor := by
        show nextCursor (page (pageChain page i)) = m.cursor
        unfold nextCursor
        rw [hm]
      have hcum : docsBefore page (i + 1) = docsBefore page i +
        ((page (pageChain page i)).collection.getD []).length := rfl
      obtain ⟨docs2, f, hloop, hl2, hif, hb1, hb2⟩ := ih (i + 1)
        (docs ++ ((page (pageChain page i)).collection.getD []).map
          (fun it => processItem it server))
        (by simp only [List.length_append, List.length_map, hlen, hcum])
        (by rw [hcum]; omega)
        (by rw [hcum]; omega)
      refine ⟨docs2, f, ?_, hl2, by omega, hb1, hb2⟩
      have hce : (m.cursor == pageChain page i) = false := by
        simp only [beq_eq_false_iff_ne]
        exact hmc
      unfold loadLoop
      simp only [hfetch i,
        processItems_short server K ((page (pageChain page i)).collection.getD [])
          docs (docsBefore page i) (by omega), hm, hce,
        Bool.false_eq_true, if_false]
      rw [hchain, hcum] at hloop
      exact hloop

/-- Claim C5: with `maxResults = K ≥ 1` and an API supplying an unbounded
sequence of non-empty pages (every page on the cursor chain fetches
successfully, is non-empty, and carries a fresh continuation token), the
single-source drain succeeds and returns exactly `K` documents,
truncating inside the page on which the `K`-th record accumulates: the
number of fetches `f` satisfies `docsBefore (f-1) < K ≤ docsBefore f`,
so no page beyond that one is fetched (and `f ≤ K`). -/
theorem c5_result_cap_exact (httpGet : String → Except FetchError ApiBody)
    (q sd ed : Option String) (server : String) (K : Nat) (hK : 1 ≤ K)
    (page : Option String → ApiData)
    (hfetch : ∀ i, fetchData httpGet
      (buildApiUrl q sd ed server (cursorStr (pageChain page i))) =
      .ok (page (pageChain page i)))
    (hne : ∀ i, ((page (pageChain page i)).collection.getD []) ≠ [])
    (hfresh : ∀ i, ∃ m ms,
      (page (pageChain page i)).messages.getD [] = m :: ms ∧
      m.cursor ≠ pageChain page i)
    (fuel : Nat) (hfuel : K ≤ fuel) :
    ∃ docs f,
      loadFromServer httpGet q sd ed server (some K) fuel =
        some (.ok (docs, f)) ∧
      docs.length = K ∧ 1 ≤ f ∧ f ≤ K ∧
      docsBefore page (f - 1) < K ∧ K ≤ docsBefore page f := by
  have hz : docsBefore page 0 = 0 := rfl
  obtain ⟨docs2, f, hloop, h1, h2, h3, h4⟩ :=
    loadLoop_cap_exact httpGet q sd ed server K hK page hfetch hne hfresh
      fuel 0 [] rfl (by rw [hz]; omega) (by rw [hz]; omega)
  have hge := docsBefore_ge page hne (f - 1)
  exact ⟨docs2, f, hloop, h1, by omega, by omega, h3, h4⟩

/-- The C5 chain only visits the three known cursors. -/
lemma c5_chain_mem : ∀ i, pageChain c5Page i = some "0" ∨
    pageChain c5Page i = some "A" ∨ pageChain c5Page i = some "B" := by
  intro i
  induction i with
  | zero => left; rfl
  | succ n ih =>
    have hstep : pageChain c5Page (n + 1) =
      nextCursor (c5Page (pageChain c5Page n)) := rfl
    rcases ih with h | h | h <;> rw [hstep, h]
    · right; left; rfl
    · right; right; rfl
    · right; left; rfl

/-- Claim C5, witness: the theorem applied to the concrete unbounded API
with `K = 2` — the drain returns exactly two documents after exactly two
single-record pages. -/
theorem c5_witness :
    ∃ docs f,
      loadFromServer c5HttpGet (some "5") none none "biorxiv" (some 2) 2 =
        some (.ok (docs, f)) ∧
      docs.length = 2 ∧ 1 ≤ f ∧ f ≤ 2 ∧
      docsBefore c5Page (f - 1) < 2 ∧ 2 ≤ docsBefore c5Page f := by
  refine c5_result_cap_exact c5HttpGet (some "5") none none "biorxiv" 2
    (by omega) c5Page ?_ ?_ ?_ 2 (by omega)
  · intro i
    rcases c5_chain_mem i with h | h | h <;> rw [h] <;> rfl
  · intro i
    rcases c5_chain_mem i with h | h | h <;> rw [h] <;> decide
  · intro i
    rcases c5_chain_mem i with h | h | h <;> rw [h]
    · exact ⟨⟨some "A", none, none⟩, [], rfl, by decide⟩
    · exact ⟨⟨some "B", none, none⟩, [], rfl, by decide⟩
    · exact ⟨⟨some "A", none, none⟩, [], rfl, by decide⟩

end MedrxivSpec
